import Mathlib

/-!
Shallow embedding of the `simple-namecheap-ddns` agent runtime
(`src/agent/core.py`, `src/agent/database.py`, `src/shared_lib/schema.py`,
`src/shared_lib/url_validation.py`) together with models of the Python and
library primitives those modules rely on (`str.strip`, `str.lower`, `int()`,
`str.format`, `urllib.parse.urlparse` hostname extraction,
`xml.etree.ElementTree.fromstring`, pydantic `HttpUrl` normalization).
All machine-facing behaviour (network, decryption, storage faults) is an
explicit oracle (`Env`), so every definition is executable and every run is
deterministic given the oracle.
-/

namespace DDNS

/-! ## Python string primitives (ASCII scope)

The agent only ever manipulates ASCII configuration strings, URLs and
provider bodies, so the Python string methods are modelled over ASCII:
`str.strip` strips the six ASCII whitespace characters, `str.lower` maps
A-Z to a-z, `str.isdigit` recognises 0-9. -/

/-- The ASCII whitespace characters recognised by Python `str.strip()`. -/
def pyWhitespace (c : Char) : Bool :=
  c = ' ' || c = '\t' || c = '\n' || c = '\x0d' || c = '\x0b' || c = '\x0c'

/-- Python `str.strip()` on ASCII input: drop whitespace at both ends. -/
def pyStrip (s : String) : String :=
  String.mk (((s.toList.dropWhile pyWhitespace).reverse.dropWhile pyWhitespace).reverse)

/-- ASCII lowercase of one character (Python `str.lower` on ASCII). -/
def asciiLowerChar (c : Char) : Char :=
  if 'A' ≤ c ∧ c ≤ 'Z' then Char.ofNat (c.toNat + 32) else c

/-- ASCII lowercase of a string (Python `str.lower` on ASCII). -/
def asciiLower (s : String) : String :=
  String.mk (s.toList.map asciiLowerChar)

/-- ASCII decimal digit test (Python `str.isdigit` on ASCII). -/
def isAsciiDigit (c : Char) : Bool :=
  '0' ≤ c && c ≤ '9'

/-- Numeric value of an ASCII digit. -/
def digitVal (c : Char) : Nat :=
  c.toNat - '0'.toNat

/-- Whether `needle` is a prefix of `haystack` (over character lists). -/
def listStartsWith : List Char → List Char → Bool
  | [], _ => true
  | _ :: _, [] => false
  | a :: as, b :: bs => a = b && listStartsWith as bs

/-- Whether `needle` occurs as a contiguous sublist of `haystack`. -/
def listIsSub (needle : List Char) : List Char → Bool
  | [] => listStartsWith needle []
  | c :: cs => listStartsWith needle (c :: cs) || listIsSub needle cs

/-- Python `needle in haystack` substring test. -/
def containsSub (haystack needle : String) : Bool :=
  listIsSub needle.toList haystack.toList

/-- Whether a character occurs in a string (Python `c in s`). -/
def containsChar (s : String) (c : Char) : Bool :=
  s.toList.contains c

/-! ## Python `int()` on strings

`int(s)` strips whitespace, accepts an optional sign and a nonempty digit
run in which single underscores may separate digits; anything else raises
`ValueError`, modelled as `none`. -/

/-- Digit run of Python `int()` after the first digit: digits with single
underscores allowed only between digits. -/
def pyIntDigitsAux : List Char → Nat → Option Nat
  | [], acc => some acc
  | '_' :: c :: rest, acc =>
      if isAsciiDigit c then pyIntDigitsAux rest (acc * 10 + digitVal c) else none
  | c :: rest, acc =>
      if isAsciiDigit c then pyIntDigitsAux rest (acc * 10 + digitVal c) else none

/-- Digit run of Python `int()`: must start with a digit. -/
def pyIntDigits : List Char → Option Nat
  | c :: rest => if isAsciiDigit c then pyIntDigitsAux rest (digitVal c) else none
  | [] => none

/-- Python `int(s)` for a string: `some n` on success, `none` on `ValueError`. -/
def pyInt (s : String) : Option Int :=
  match (pyStrip s).toList with
  | '+' :: rest => (pyIntDigits rest).map Int.ofNat
  | '-' :: rest => (pyIntDigits rest).map (fun n => -(Int.ofNat n))
  | rest => (pyIntDigits rest).map Int.ofNat

/-! ## Python `dict` as an insertion-ordered association list

Python dicts preserve insertion order; assigning to an existing key
replaces the value in place without moving the key. -/

/-- Split a character list at every occurrence of a separator (Python
`str.split(sep)`: `""` splits to `[""]`, separators at the ends produce
empty parts). -/
def splitOnCharAux (sep : Char) : List Char → List Char → List (List Char)
  | [], acc => [acc.reverse]
  | c :: rest, acc =>
    if c = sep then acc.reverse :: splitOnCharAux sep rest []
    else splitOnCharAux sep rest (c :: acc)

/-- Python `s.split(sep)` for a single-character separator. -/
def splitOnChar (sep : Char) (s : String) : List String :=
  (splitOnCharAux sep s.toList []).map String.mk

/-- First-match lookup, `d.get(k)`. -/
def dictGet (d : List (String × String)) (k : String) : Option String :=
  match d.find? (fun p => p.fst = k) with
  | some p => some p.snd
  | none => none

/-- Python `d[k] = v`: replace in place if present, else append. -/
def dictSet (d : List (String × String)) (k v : String) : List (String × String) :=
  match d with
  | [] => [(k, v)]
  | (k', v') :: rest =>
      if k' = k then (k', v) :: rest else (k', v') :: dictSet rest k v

/-! ## XML model (`xml.etree.ElementTree`)

An element carries its tag, its attributes, and the text immediately after
its opening tag (`elem.text`); tail text between siblings is consumed and
discarded by the parser because `_parse_namecheap_fields` never reads it.
The parser models `ElementTree.fromstring` on plain element markup:
a single root element is required (anything non-whitespace after the root
is a `ParseError`, modelled as `none`), close tags must match, attributes
are double-quoted.  XML declarations, comments, CDATA and entity
references are outside the model's scope; none of the provider bodies
exercised here contain them. -/

/-- The opening curly-brace character. -/
def braceOpen : Char := Char.ofNat 123

/-- The closing curly-brace character. -/
def braceClose : Char := Char.ofNat 125

inductive Xml where
  | elem (tag : String) (attrib : List (String × String)) (text : String) (children : List Xml)

/-- Tag of an element. -/
def Xml.tag : Xml → String
  | .elem t _ _ _ => t

/-- Attribute dictionary of an element. -/
def Xml.attrib : Xml → List (String × String)
  | .elem _ a _ _ => a

/-- Text immediately following the opening tag (`elem.text`, `""` for `None`). -/
def Xml.text : Xml → String
  | .elem _ _ x _ => x

/-- Children of an element. -/
def Xml.children : Xml → List Xml
  | .elem _ _ _ cs => cs

/-- Document-order (preorder) traversal as a worklist: the head element,
then its children ahead of its siblings.  Fuel bounds the number of
visited nodes and is always instantiated above the tree size. -/
def xmlIterAux : Nat → List Xml → List Xml
  | 0, _ => []
  | _ + 1, [] => []
  | fuel + 1, .elem t a x cs :: rest => .elem t a x cs :: xmlIterAux fuel (cs ++ rest)

/-- Document-order iteration, `root.iter()`. -/
def xmlIter (fuel : Nat) (root : Xml) : List Xml :=
  xmlIterAux fuel [root]

/-- XML whitespace. -/
def xmlWs (c : Char) : Bool :=
  c = ' ' || c = '\t' || c = '\n' || c = '\x0d'

/-- Characters allowed in a tag or attribute name by the parser model. -/
def xmlNameChar (c : Char) : Bool :=
  !(c = ' ' || c = '\t' || c = '\n' || c = '\x0d' || c = '>' || c = '<' ||
    c = '/' || c = '=' || c = '"')

/-- Parse a run of double-quoted attributes, stopping at `>` or `/>`. -/
def parseXmlAttrs : Nat → List Char → Option (List (String × String) × List Char)
  | 0, _ => none
  | fuel + 1, cs0 =>
    let cs := cs0.dropWhile xmlWs
    match cs with
    | '>' :: _ => some ([], cs)
    | '/' :: '>' :: _ => some ([], cs)
    | _ =>
      let name := cs.takeWhile xmlNameChar
      let rest := cs.dropWhile xmlNameChar
      if name = [] then none
      else
        match rest with
        | '=' :: '"' :: rest2 =>
          let v := rest2.takeWhile (fun c => c ≠ '"')
          (match rest2.dropWhile (fun c => c ≠ '"') with
           | '"' :: rest3 =>
             match parseXmlAttrs fuel rest3 with
             | some (attrs, rest4) => some ((String.mk name, String.mk v) :: attrs, rest4)
             | none => none
           | _ => none)
        | _ => none

/-- Parser mode: at the start of an element, or inside an open element
collecting its children until the matching close tag. -/
inductive PMode where
  | elem (cs : List Char)
  | body (tag : String) (attrs : List (String × String)) (text : String)
      (acc : List Xml) (cs : List Char)

/-- The element parser, structurally recursive on fuel.  `.elem` parses one
element starting at `<`; `.body` parses the children and close tag of an
open element, discarding tail text between siblings. -/
def parseXml : Nat → PMode → Option (Xml × List Char)
  | 0, _ => none
  | fuel + 1, .elem cs =>
    match cs with
    | '<' :: rest =>
      let name := rest.takeWhile xmlNameChar
      let rest1 := rest.dropWhile xmlNameChar
      if name = [] then none
      else
        (match parseXmlAttrs (rest1.length + 1) rest1 with
         | some (attrs, rest2) =>
           (match rest2 with
            | '/' :: '>' :: rest3 => some (Xml.elem (String.mk name) attrs "" [], rest3)
            | '>' :: rest3 =>
              let text := rest3.takeWhile (fun c => c ≠ '<')
              let rest4 := rest3.dropWhile (fun c => c ≠ '<')
              parseXml fuel (.body (String.mk name) attrs (String.mk text) [] rest4)
            | _ => none)
         | none => none)
    | _ => none
  | fuel + 1, .body tag attrs text acc cs =>
    match cs with
    | '<' :: '/' :: rest =>
      let cname := rest.takeWhile xmlNameChar
      let rest1 := (rest.dropWhile xmlNameChar).dropWhile xmlWs
      (match rest1 with
       | '>' :: rest2 =>
         if cname = tag.toList then some (Xml.elem tag attrs text acc.reverse, rest2)
         else none
       | _ => none)
    | '<' :: _ =>
      (match parseXml fuel (.elem cs) with
       | some (child, rest1) =>
         let rest2 := rest1.dropWhile (fun c => c ≠ '<')
         parseXml fuel (.body tag attrs text (child :: acc) rest2)
       | none => none)
    | _ => none

/-- `ElementTree.fromstring`: one root element, nothing but whitespace after
it; `none` models `ParseError`. -/
def xmlFromString (body : String) : Option Xml :=
  let cs := body.toList.dropWhile xmlWs
  match parseXml (cs.length + 1) (.elem cs) with
  | some (root, rest) => if rest.dropWhile xmlWs = [] then some root else none
  | none => none

/-! ## Response Interpreter (`src/agent/core.py` lines 20-88) -/

/-- `_strip_xml_tag`: `tag.split("\x7d", 1)[-1]` — drop a namespace prefix up
to and including the first closing brace. -/
def strip_xml_tag (tag : String) : String :=
  let cs := tag.toList
  if cs.contains braceClose then
    String.mk ((cs.dropWhile (fun c => c ≠ braceClose)).drop 1)
  else tag

/-- `tag.startswith("Err") and tag[3:].isdigit()`. -/
def isErrNTag (tag : String) : Bool :=
  listStartsWith "Err".toList tag.toList && decide (3 < tag.length) &&
    (tag.toList.drop 3).all isAsciiDigit

/-- The `elif` chain of `_parse_namecheap_fields` over an element's
stripped tag and trimmed text. -/
def fieldsStepText (fields : List (String × String)) (tag text : String) :
    List (String × String) :=
  if tag = "ErrCount" ∧ text ≠ "" then dictSet fields "ErrCount" text
  else if tag = "IsSuccess" ∧ text ≠ "" then dictSet fields "IsSuccess" text
  else if isErrNTag tag = true ∧ text ≠ "" then dictSet fields tag text
  else if tag = "Error" ∧ text ≠ "" ∧ dictGet fields "Err1" = none then
    dictSet fields "Err1" text
  else fields

/-- The `IsSuccess` attribute fallback of `_parse_namecheap_fields`: the
attribute value is taken only when the field is not already present. -/
def fieldsStepAttrIS (fields attrib : List (String × String)) :
    List (String × String) :=
  match dictGet attrib "IsSuccess" with
  | some v =>
    if dictGet fields "IsSuccess" = none then dictSet fields "IsSuccess" v else fields
  | none => fields

/-- The `ErrCount` attribute fallback, same shape. -/
def fieldsStepAttrEC (fields attrib : List (String × String)) :
    List (String × String) :=
  match dictGet attrib "ErrCount" with
  | some v =>
    if dictGet fields "ErrCount" = none then dictSet fields "ErrCount" v else fields
  | none => fields

/-- The two attribute fallbacks of `_parse_namecheap_fields`, in source
order: `IsSuccess` first, then `ErrCount`. -/
def fieldsStepAttr (fields attrib : List (String × String)) :
    List (String × String) :=
  fieldsStepAttrEC (fieldsStepAttrIS fields attrib) attrib

/-- One iteration of the `for elem in root.iter()` loop of
`_parse_namecheap_fields`: the `elif` chain over the element text, then the
two attribute fallbacks. -/
def fieldsStep (fields : List (String × String)) (e : Xml) : List (String × String) :=
  fieldsStepAttr (fieldsStepText fields (strip_xml_tag e.tag) (pyStrip e.text)) e.attrib

/-- `_parse_namecheap_fields`: parse the body as XML when it contains `<`;
a parse failure yields the empty field set. -/
def parse_namecheap_fields (body : String) : List (String × String) :=
  if body = "" ∨ containsChar body '<' = false then []
  else
    match xmlFromString body with
    | none => []
    | some root => (xmlIter (body.length + 1) root).foldl fieldsStep []

/-- First block of `_is_namecheap_error`: a truthy `ErrCount` that parses
as an integer greater than zero (a `ValueError` from `int()` is ignored). -/
def errCountFlag (fields : List (String × String)) : Bool :=
  match dictGet fields "ErrCount" with
  | some s =>
    if s ≠ "" then
      match pyInt s with
      | some n => decide (0 < n)
      | none => false
    else false
  | none => false

/-- Second block of `_is_namecheap_error`: a truthy `IsSuccess` whose
trimmed lowercase form is `false`, `0` or `no`. -/
def isSuccessFalseFlag (fields : List (String × String)) : Bool :=
  match dictGet fields "IsSuccess" with
  | some s =>
    decide (s ≠ "") && (["false", "0", "no"].contains (asciiLower (pyStrip s)))
  | none => false

/-- `_is_namecheap_error` (core.py lines 50-61). -/
def is_namecheap_error (fields : List (String × String)) : Bool :=
  if errCountFlag fields then true else isSuccessFalseFlag fields

/-- `_format_namecheap_message`: trimmed body plus a parenthesized,
pipe-joined detail string (HTTP code, then `ErrCount`, `IsSuccess`, `Err1`,
then the remaining fields in discovery order). -/
def format_namecheap_message (body : String) (response_code : Option Int)
    (fields : List (String × String)) : String :=
  let detail0 : List String :=
    match response_code with
    | some c => ["HTTP " ++ toString c]
    | none => []
  let ordered : List String :=
    (["ErrCount", "IsSuccess", "Err1"].filterMap (fun k =>
      match dictGet fields k with
      | some v => some (k ++ "=" ++ v)
      | none => none)) ++
    ((fields.filter (fun p => !(["ErrCount", "IsSuccess", "Err1"].contains p.fst))).map
      (fun p => p.fst ++ "=" ++ p.snd))
  let detailParts := detail0 ++ (if fields = [] then [] else ordered)
  let base := pyStrip body
  if detailParts ≠ [] then
    let detail := String.intercalate " | " detailParts
    if base ≠ "" then base ++ " (" ++ detail ++ ")" else detail
  else base

/-- The inline classification of `run_once` (lines 293-297):
`error` when the HTTP status is at least 400 or the provider fields
indicate an error, `success` otherwise. -/
def classify_status (response_code : Int) (fields : List (String × String)) : String :=
  if 400 ≤ response_code ∨ is_namecheap_error fields = true then "error" else "success"

/-! ## Python `str.format` (named-placeholder subset)

Models `template.format(**kwargs)` for the URL templates this agent uses:
literal text, doubled-brace escapes, and simple replacement fields.  A
named field is looked up in the keyword arguments (`KeyError` when
absent); an empty or all-digit field is a positional reference, which
raises `IndexError` because no positional arguments are passed; an
unterminated or stray brace raises `ValueError`.  Attribute/index suffixes
and non-empty format specs inside a field are outside the model's scope —
no template in this repository uses them. -/

inductive FmtErr where
  | keyError (key : String)
  | indexError
  | valueError
deriving DecidableEq

/-- Worker for `str.format`, with fuel bounded by the template length. -/
def pyFormatAux : Nat → List Char → List (String × String) → Except FmtErr (List Char)
  | 0, _, _ => .error .valueError
  | fuel + 1, cs, kw =>
    match cs with
    | [] => .ok []
    | c :: rest =>
      if c = braceOpen then
        match rest with
        | [] => .error .valueError
        | c2 :: rest2 =>
          if c2 = braceOpen then
            match pyFormatAux fuel rest2 kw with
            | .ok out => .ok (braceOpen :: out)
            | .error e => .error e
          else
            let field := (c2 :: rest2).takeWhile (fun x => x ≠ braceClose)
            match (c2 :: rest2).dropWhile (fun x => x ≠ braceClose) with
            | [] => .error .valueError
            | _ :: rest3 =>
              let key := field.takeWhile (fun x => x ≠ '!' && x ≠ ':')
              if key = [] then .error .indexError
              else if key.all isAsciiDigit then .error .indexError
              else
                match dictGet kw (String.mk key) with
                | none => .error (.keyError (String.mk key))
                | some v =>
                  match pyFormatAux fuel rest3 kw with
                  | .ok out => .ok (v.toList ++ out)
                  | .error e => .error e
      else if c = braceClose then
        match rest with
        | [] => .error .valueError
        | c2 :: rest2 =>
          if c2 = braceClose then
            match pyFormatAux fuel rest2 kw with
            | .ok out => .ok (braceClose :: out)
            | .error e => .error e
          else .error .valueError
      else
        match pyFormatAux fuel rest kw with
        | .ok out => .ok (c :: out)
        | .error e => .error e

/-- `template.format(**kwargs)` with string keyword arguments. -/
def pyFormat (template : String) (kw : List (String × String)) : Except FmtErr String :=
  match pyFormatAux (template.length + 1) template.toList kw with
  | .ok out => .ok (String.mk out)
  | .error e => .error e

/-! ## URL Guard (`src/shared_lib/url_validation.py`)

`urllib.parse.urlparse` is modelled far enough to recover the scheme and
the hostname (netloc after the last `@`, before the port separator,
lowercased); bracketed IPv6 hosts are outside scope.  `ipaddress` is
modelled for dotted-quad IPv4 literals; a hostname that is not a valid
IPv4 literal is treated as a name, exactly as `ip_address` raising
`ValueError` is in the source. -/

/-- Characters `urlparse` accepts inside a scheme. -/
def validSchemeChar (c : Char) : Bool :=
  c.isAlpha || isAsciiDigit c || c = '+' || c = '-' || c = '.'

/-- Split a URL into lowercased scheme and remainder; scheme is `""` when
the prefix before the first colon is not a valid scheme. -/
def urlSplitScheme (url : String) : String × String :=
  let cs := url.toList
  if cs.contains ':' then
    let pre := cs.takeWhile (fun c => c ≠ ':')
    let post := (cs.dropWhile (fun c => c ≠ ':')).drop 1
    match pre with
    | [] => ("", url)
    | c0 :: _ =>
      if c0.isAlpha ∧ pre.all validSchemeChar = true then
        (asciiLower (String.mk pre), String.mk post)
      else ("", url)
  else ("", url)

/-- The netloc of a URL: present only after a `//` following the scheme. -/
def urlNetloc (url : String) : List Char :=
  let (scheme, rest) := urlSplitScheme url
  let restCs := (if scheme = "" then url else rest).toList
  match restCs with
  | '/' :: '/' :: r => r.takeWhile (fun c => c ≠ '/' && c ≠ '?' && c ≠ '#')
  | _ => []

/-- `parsed.hostname`: netloc after the last `@`, before `:`, lowercased;
`none` when empty. -/
def urlHostname (url : String) : Option String :=
  let netloc := urlNetloc url
  let hostport :=
    if netloc.contains '@' then (netloc.reverse.takeWhile (fun c => c ≠ '@')).reverse
    else netloc
  let host := hostport.takeWhile (fun c => c ≠ ':')
  if host = [] then none else some (asciiLower (String.mk host))

/-- One dotted-quad component: nonempty, all digits, at most three of them,
no leading zero, value at most 255. -/
def parseIPv4Part (s : String) : Option Nat :=
  let cs := s.toList
  if cs ≠ [] ∧ cs.all isAsciiDigit = true ∧ cs.length ≤ 3 ∧
      (cs.length = 1 ∨ cs.head? ≠ some '0') then
    let n := cs.foldl (fun acc c => acc * 10 + digitVal c) 0
    if n ≤ 255 then some n else none
  else none

/-- `ipaddress.ip_address` on a dotted-quad IPv4 literal. -/
def parseIPv4 (s : String) : Option (Nat × Nat × Nat × Nat) :=
  match (splitOnChar '.' s).map parseIPv4Part with
  | [some a, some b, some c, some d] => some (a, b, c, d)
  | _ => none

/-- The disjunction of `is_private`, `is_loopback`, `is_link_local`,
`is_reserved`, `is_multicast` and `is_unspecified` for an IPv4 address. -/
def ipv4Unroutable : Nat × Nat × Nat × Nat → Bool
  | (a, b, _, _) =>
    (a = 0 || a = 10 || (a = 172 && decide (16 ≤ b) && decide (b ≤ 31)) ||
      (a = 192 && b = 168)) ||
    a = 127 ||
    (a = 169 && b = 254) ||
    decide (240 ≤ a) ||
    (decide (224 ≤ a) && decide (a ≤ 239))

/-- The allowlist membership check at the end of `validate_url`; an empty
allowlist is a no-op. -/
def allowlistCheck (host : String) (allowed_hosts : List String) : Except String Unit :=
  if allowed_hosts = [] then .ok ()
  else if (allowed_hosts.map asciiLower).contains host = true then .ok ()
  else .error ("URL host " ++ host ++ " is not in the allowlist")

/-- `validate_url` (url_validation.py lines 20-51); the `Except` message is
the `ValueError` text. -/
def validate_url (value : String) (allowed_hosts : List String) : Except String Unit :=
  let scheme := (urlSplitScheme value).fst
  if scheme ≠ "https" then .error "URL must use https://"
  else
    match urlHostname value with
    | none => .error "URL must include a hostname"
    | some host0 =>
      let host := asciiLower host0
      if host = "localhost" then .error "URL hostname cannot be localhost"
      else
        match parseIPv4 host with
        | some ip =>
          if ipv4Unroutable ip = true then
            .error "URL hostname cannot be a loopback or private IP"
          else allowlistCheck host allowed_hosts
        | none => allowlistCheck host allowed_hosts

/-- `parse_host_allowlist` (url_validation.py lines 10-17), as an ordered
list used only for membership. -/
def parse_host_allowlist (raw : Option String) : List String :=
  match raw with
  | none => []
  | some s =>
    if s = "" then []
    else ((splitOnChar ',' s).map (fun h => asciiLower (pyStrip h))).filter (fun h => h != "")

/-! ## Configuration schema (`src/shared_lib/schema.py`)

The pydantic v2 path of the source (`model_validate` / `field_validator`)
is modelled.  `HttpUrl` validates and **normalizes** its input: scheme and
host are lowercased, a default port is dropped, and an empty path becomes
`/`; `str()` of the field returns the normalized form, not the input
text. -/

/-- A target entry of the configuration document, before validation. -/
structure TargetDoc where
  id : String
  hostname : String
  update_url : String
  encrypted_token : String
  interval : Int
deriving DecidableEq

/-- `AgentTarget` after pydantic validation; `update_url` holds the string
form of the validated `HttpUrl`. -/
structure AgentTarget where
  id : String
  hostname : String
  update_url : String
  encrypted_token : String
  interval : Int
deriving DecidableEq

/-- pydantic v2 `HttpUrl` validation and normalization: require an http or
https scheme and a nonempty host; lowercase scheme and host, drop a
default port, make an empty path `/`. -/
def normalizeHttpUrl (s : String) : Option String :=
  let (scheme, rest0) := urlSplitScheme s
  if scheme = "http" ∨ scheme = "https" then
    match rest0.toList with
    | '/' :: '/' :: r =>
      let netloc := r.takeWhile (fun c => c ≠ '/' && c ≠ '?' && c ≠ '#')
      let path := r.dropWhile (fun c => c ≠ '/' && c ≠ '?' && c ≠ '#')
      let hostport :=
        if netloc.contains '@' then (netloc.reverse.takeWhile (fun c => c ≠ '@')).reverse
        else netloc
      let host := hostport.takeWhile (fun c => c ≠ ':')
      let portStr := (hostport.dropWhile (fun c => c ≠ ':')).drop 1
      if host = [] then none
      else if portStr.all isAsciiDigit = false then none
      else
        let defaultPort : Nat := if scheme = "https" then 443 else 80
        let portPart : List Char :=
          if portStr = [] then []
          else
            let p := portStr.foldl (fun acc c => acc * 10 + digitVal c) 0
            if p = defaultPort then [] else ':' :: portStr
        let userPart : List Char :=
          if netloc.contains '@' then
            netloc.take (netloc.length - hostport.length - 1) ++ ['@']
          else []
        let pathPart : List Char :=
          if path = [] then ['/']
          else if path.head? = some '?' ∨ path.head? = some '#' then '/' :: path
          else path
        some (scheme ++ "://" ++ String.mk userPart ++ asciiLower (String.mk host) ++
          String.mk portPart ++ String.mk pathPart)
    | _ => none
  else none

/-- Validating one target document (`AgentTarget.model_validate` on its
fields): only `update_url` transforms; the other fields are carried
verbatim. -/
def loadAgentTarget (doc : TargetDoc) : Option AgentTarget :=
  match normalizeHttpUrl doc.update_url with
  | some u =>
    some { id := doc.id, hostname := doc.hostname, update_url := u,
           encrypted_token := doc.encrypted_token, interval := doc.interval }
  | none => none

/-- Re-serializing the target fields of a loaded `AgentTarget`. -/
def dumpAgentTarget (t : AgentTarget) : TargetDoc :=
  { id := t.id, hostname := t.hostname, update_url := t.update_url,
    encrypted_token := t.encrypted_token, interval := t.interval }

/-- The runtime configuration (`AgentConfig`). -/
structure AgentConfig where
  check_ip_url : String
  targets : List AgentTarget
  manual_ip_enabled : Bool
  manual_ip_address : Option String

/-- `ipaddress.ip_address(value)` succeeding (IPv4 dotted-quad scope). -/
def is_ip_address (s : String) : Bool :=
  (parseIPv4 s).isSome

/-- `AgentConfig._validate_manual_ip_address`: a falsy value (absent or
empty) normalizes to `None`; otherwise the value must parse as an IP
address, a failure raising `ValueError` out of validation. -/
def validate_manual_ip_address (value : Option String) : Except String (Option String) :=
  match value with
  | none => .ok none
  | some s =>
    if s = "" then .ok none
    else if is_ip_address s = true then .ok (some s)
    else .error "does not appear to be an IPv4 or IPv6 address"

/-! ## State Store (`src/agent/database.py`)

The SQLite log is a list of append-only records plus a key/value cache
with upsert semantics.  A storage fault raised by `log_update` is part of
the oracle (`Env.logFault`): when set, every `log_update` call raises with
that message and appends nothing.  Cache reads and writes are modelled
infallible — the claims under test only fault the history insert. -/

/-- `UpdateRecord` (database.py lines 10-16). -/
structure UpdateRecord where
  target_id : String
  status : String
  message : String
  response_code : Option Int
  ip_address : Option String
deriving DecidableEq

/-- The durable state: `update_history` rows and the `cache` table. -/
structure DBState where
  records : List UpdateRecord
  cache : List (String × String)
deriving DecidableEq

/-- `get_cache` (database.py lines 69-76). -/
def get_cache (db : DBState) (key : String) : Option String :=
  dictGet db.cache key

/-- `set_cache` (database.py lines 78-88): idempotent upsert. -/
def set_cache (db : DBState) (key value : String) : DBState :=
  { db with cache := dictSet db.cache key value }

/-! ## Agent Runtime (`src/agent/core.py` lines 91-348)

The environment `Env` is the oracle for everything outside the program:
token decryption, every `session.get`, the storage fault, and the two host
allowlists read from the environment at startup.  `run_once` returns the
final durable state, the ordered trace of externally visible events, and
`some message` exactly when an exception escapes the cycle. -/

/-- Observable events of one cycle, in program order. -/
inductive Event where
  | ipLookup (url : String)
  | cacheRead (key : String) (value : Option String)
  | cacheWrite (key : String) (value : String)
  | decryptCall (ciphertext : String)
  | updateCall (url : String)
  | logWrite (r : UpdateRecord)
deriving DecidableEq

/-- Result of one `session.get`: a response, a raised
`requests.RequestException` (with the status code attached to its
response, if any), or any other raised exception. -/
inductive NetOutcome where
  | resp (code : Int) (body : String)
  | raiseReq (msg : String) (respCode : Option Int)
  | raiseOther (msg : String)

/-- The oracle for all effects outside the agent's own code. -/
structure Env where
  decrypt : String → Except String String
  http : String → NetOutcome
  logFault : Option String
  check_ip_allowlist : List String
  update_url_allowlist : List String

/-- Python truthiness of an optional string. -/
def optTruthy : Option String → Bool
  | some s => s ≠ ""
  | none => false

/-- `log_update` under the oracle: on a fault nothing is appended and the
fault message is raised; inside `run_once` every raise from a `log_update`
in an `except` handler escapes the cycle, and a raise from a `log_update`
inside the `try` is caught by the generic handler whose own `log_update`
raises again — so under a set `logFault` the net effect at every call site
is the same: no row, exception `m` escaping the per-target code. -/
def log_update (env : Env) (db : DBState) (r : UpdateRecord) :
    DBState × List Event × Option String :=
  match env.logFault with
  | none => ({ db with records := db.records ++ [r] }, [.logWrite r], none)
  | some m => (db, [], some m)

/-- `_build_update_url` (core.py lines 201-218): substitute the fixed
placeholder set; `KeyError` falls back to the literal template; any other
format exception propagates (as `.error` with the exception text). -/
def build_update_url (target_url token hostname target_id : String)
    (ip_address : Option String) : Except String String :=
  let format_values :=
    [("token", token), ("hostname", hostname), ("id", target_id),
     ("ip", ip_address.getD "")]
  match pyFormat target_url format_values with
  | .ok out => .ok out
  | .error (.keyError _) => .ok target_url
  | .error .indexError => .error "Replacement index out of range for positional args tuple"
  | .error .valueError => .error "bad format string in update_url template"

/-- How far the `try` body of the per-target loop gets, and with what. -/
inductive Attempt where
  | decryptFailed (msg : String)
  | formatRaised (msg : String)
  | urlRejected (msg : String)
  | reqFailed (url : String) (msg : String) (respCode : Option Int)
  | netOther (url : String) (msg : String)
  | responded (url : String) (code : Int) (body : String)
deriving DecidableEq

/-- The deterministic outcome of the `try` body for one target: decrypt,
build the URL, validate it, issue the request (core.py lines 258-302). -/
def attemptOf (env : Env) (ip : Option String) (t : AgentTarget) : Attempt :=
  match env.decrypt t.encrypted_token with
  | .error m => .decryptFailed m
  | .ok token =>
    match build_update_url t.update_url token t.hostname t.id ip with
    | .error m => .formatRaised m
    | .ok url =>
      match validate_url url env.update_url_allowlist with
      | .error e => .urlRejected e
      | .ok _ =>
        match env.http url with
        | .raiseReq m rc => .reqFailed url m rc
        | .raiseOther m => .netOther url m
        | .resp code body => .responded url code body

/-- Whether the `try` body's outcome is a failure (anything but an actual
provider response). -/
def Attempt.isFailure : Attempt → Bool
  | .responded _ _ _ => false
  | _ => true

/-- Events emitted by the `try` body before any logging: always the
decrypt call, plus the network call when the URL passed validation. -/
def attemptEvents (t : AgentTarget) : Attempt → List Event
  | .reqFailed url _ _ => [.decryptCall t.encrypted_token, .updateCall url]
  | .netOther url _ => [.decryptCall t.encrypted_token, .updateCall url]
  | .responded url _ _ => [.decryptCall t.encrypted_token, .updateCall url]
  | _ => [.decryptCall t.encrypted_token]

/-- Processing one attempted (non-skipped) target: the `try` body plus the
`except requests.RequestException` and `except Exception` handlers
(core.py lines 258-342). -/
def processAttempt (env : Env) (ip : Option String) (db : DBState)
    (t : AgentTarget) (pre : List Event) : DBState × List Event × Option String :=
  let att := attemptOf env ip t
  let evs := pre ++ attemptEvents t att
  match att with
  | .decryptFailed m =>
    let l := log_update env db ⟨t.id, "error", m, none, ip⟩
    (l.fst, evs ++ l.snd.fst, l.snd.snd)
  | .formatRaised m =>
    let l := log_update env db ⟨t.id, "error", m, none, ip⟩
    (l.fst, evs ++ l.snd.fst, l.snd.snd)
  | .urlRejected e =>
    let l := log_update env db ⟨t.id, "error", "Update URL rejected: " ++ e, none, ip⟩
    (l.fst, evs ++ l.snd.fst, l.snd.snd)
  | .reqFailed _ m rc =>
    let l := log_update env db ⟨t.id, "error", m, rc, ip⟩
    (l.fst, evs ++ l.snd.fst, l.snd.snd)
  | .netOther _ m =>
    let l := log_update env db ⟨t.id, "error", m, none, ip⟩
    (l.fst, evs ++ l.snd.fst, l.snd.snd)
  | .responded _ code body =>
    let fields := parse_namecheap_fields body
    let status := classify_status code fields
    let message := format_namecheap_message body (some code) fields
    let l := log_update env db ⟨t.id, status, message, some code, ip⟩
    match l.snd.snd with
    | some m => (l.fst, evs ++ l.snd.fst, some m)
    | none =>
      if status = "success" ∧ optTruthy ip = true then
        (set_cache l.fst ("last_ip:" ++ t.id) (ip.getD ""),
         evs ++ l.snd.fst ++ [.cacheWrite ("last_ip:" ++ t.id) (ip.getD "")], none)
      else (l.fst, evs ++ l.snd.fst, none)

/-- One iteration of the `for target in config.targets` loop, including
the per-target skip of an unchanged pass (core.py lines 248-342). -/
def processTarget (env : Env) (skipUnchanged : Bool) (ip : Option String)
    (db : DBState) (t : AgentTarget) : DBState × List Event × Option String :=
  if skipUnchanged = true ∧ optTruthy ip = true then
    let key := "last_ip:" ++ t.id
    let cached := get_cache db key
    if cached = ip then (db, [.cacheRead key cached], none)
    else processAttempt env ip db t [.cacheRead key cached]
  else processAttempt env ip db t []

/-- The target loop: a raise escaping one target's handlers aborts the
remaining targets. -/
def runTargets (env : Env) (skipUnchanged : Bool) (ip : Option String) :
    DBState → List AgentTarget → DBState × List Event × Option String
  | db, [] => (db, [], none)
  | db, t :: ts =>
    let p := processTarget env skipUnchanged ip db t
    match p.snd.snd with
    | some m => (p.fst, p.snd.fst, some m)
    | none =>
      let q := runTargets env skipUnchanged ip p.fst ts
      (q.fst, p.snd.fst ++ q.snd.fst, q.snd.snd)

/-- `_fetch_public_ip` (core.py lines 186-199): validate the check-IP URL
(a rejection only logs), issue the request, strip the body; any
`RequestException` (including a 4xx/5xx status raised by
`raise_for_status`) yields `none`; a non-request exception escapes. -/
def fetch_public_ip (env : Env) (config : AgentConfig) :
    Option String × List Event × Option String :=
  match validate_url config.check_ip_url env.check_ip_allowlist with
  | .error _ => (none, [], none)
  | .ok _ =>
    match env.http config.check_ip_url with
    | .resp code body =>
      if 400 ≤ code then (none, [.ipLookup config.check_ip_url], none)
      else (some (pyStrip body), [.ipLookup config.check_ip_url], none)
    | .raiseReq _ _ => (none, [.ipLookup config.check_ip_url], none)
    | .raiseOther m => (none, [.ipLookup config.check_ip_url], some m)

/-- IP determination at the top of `run_once` (core.py lines 225-237):
manual override when enabled and configured; fallback to automatic lookup
with a warning when enabled but unconfigured; automatic lookup otherwise.
The `Bool` component records whether the fallback warning was logged. -/
def determine_current_ip (env : Env) (config : AgentConfig) :
    Option String × Bool × List Event × Option String :=
  if config.manual_ip_enabled = true then
    if optTruthy config.manual_ip_address = true then
      (config.manual_ip_address, false, [], none)
    else
      let f := fetch_public_ip env config
      (f.fst, true, f.snd.fst, f.snd.snd)
  else
    let f := fetch_public_ip env config
    (f.fst, false, f.snd.fst, f.snd.snd)

/-- `skip_unchanged_ip = current_ip and cached_ip == current_ip`
(core.py line 239). -/
def skip_unchanged_flag (ip cached : Option String) : Bool :=
  optTruthy ip && cached == ip

/-- `run_once` (core.py lines 220-342): one full update cycle against the
oracle, returning final state, event trace, and the escaped exception if
any. -/
def run_once (env : Env) (config : AgentConfig) (db : DBState) :
    DBState × List Event × Option String :=
  if config.targets = [] then (db, [], none)
  else
    let det := determine_current_ip env config
    let ip := det.fst
    let ev0 := det.snd.snd.fst
    match det.snd.snd.snd with
    | some m => (db, ev0, some m)
    | none =>
      let cached := get_cache db "last_ip"
      let ev1 := ev0 ++ [.cacheRead "last_ip" cached]
      let skipFlag := skip_unchanged_flag ip cached
      if optTruthy ip = true then
        let db1 := set_cache db "last_ip" (ip.getD "")
        let ev2 := ev1 ++ [.cacheWrite "last_ip" (ip.getD "")]
        let q := runTargets env skipFlag ip db1 config.targets
        (q.fst, ev2 ++ q.snd.fst, q.snd.snd)
      else
        let q := runTargets env skipFlag ip db config.targets
        (q.fst, ev1 ++ q.snd.fst, q.snd.snd)

/-! ## Concrete scenario inputs used by the claim theorems -/

/-- The empty durable state. -/
def dbEmpty : DBState := { records := [], cache := [] }

/-- A target whose update-URL template places the token in the host
position — allowed by the schema, since the template is an arbitrary
HTTPS URL. -/
def tgtLeak : AgentTarget :=
  { id := "t1", hostname := "host1.example.com",
    update_url := "https://{token}/update", encrypted_token := "CT1", interval := 300 }

/-- Configuration with a manual IP so the cycle needs no lookup call. -/
def cfgLeak : AgentConfig :=
  { check_ip_url := "https://api.ipify.org", targets := [tgtLeak],
    manual_ip_enabled := true, manual_ip_address := some "203.0.113.5" }

/-- Oracle for the leak scenario: decryption yields the plaintext token
`secrettoken`, storage is healthy, and an update-URL host allowlist is
configured (`AGENT_UPDATE_URL_HOST_ALLOWLIST`). -/
def envLeak : Env :=
  { decrypt := fun _ => .ok "secrettoken", http := fun _ => .resp 200 "ok",
    logFault := none, check_ip_allowlist := [],
    update_url_allowlist := ["dynamicdns.park-your-domain.com"] }

/-- A target rejected by the URL Guard before any network call (plain-http
update URL). -/
def tgtRejected : AgentTarget :=
  { id := "a", hostname := "a.example.com",
    update_url := "http://insecure.example.com/u", encrypted_token := "CTA", interval := 300 }

/-- An ordinary healthy target with the provider's template. -/
def tgtHealthy : AgentTarget :=
  { id := "b", hostname := "b.example.com",
    update_url :=
      "https://dynamicdns.park-your-domain.com/update?host={hostname}&password={token}&ip={ip}",
    encrypted_token := "CTB", interval := 300 }

/-- Two-target configuration: the rejected target first, the healthy one
second. -/
def cfgFault : AgentConfig :=
  { check_ip_url := "https://api.ipify.org", targets := [tgtRejected, tgtHealthy],
    manual_ip_enabled := true, manual_ip_address := some "203.0.113.5" }

/-- Oracle with a persistent storage fault: every `log_update` raises. -/
def envFault : Env :=
  { decrypt := fun _ => .ok "tok", http := fun _ => .resp 200 "ok",
    logFault := some "disk I/O error", check_ip_allowlist := [], update_url_allowlist := [] }

/-- Scenario C's response body exactly as the spec writes it: two sibling
root elements, which is not a well-formed XML document. -/
def bodyScenarioC : String := "<ErrCount>1</ErrCount><Err1>Invalid Hostname</Err1>"

/-- Scenario C's body wrapped in a single root element, as the provider
actually sends it. -/
def bodyScenarioCWrapped : String :=
  "<interface-response><ErrCount>1</ErrCount><Err1>Invalid Hostname</Err1></interface-response>"

/-- State whose per-target entry for `b` is already synchronized with the
current IP. -/
def dbSynced : DBState :=
  { records := [],
    cache := [("last_ip", "203.0.113.5"), ("last_ip:b", "203.0.113.5")] }

/-- Single healthy-target configuration. -/
def cfgOne : AgentConfig :=
  { check_ip_url := "https://api.ipify.org", targets := [tgtHealthy],
    manual_ip_enabled := true, manual_ip_address := some "203.0.113.5" }

/-- Oracle answering every update call with HTTP 200 and Scenario C's
literal body. -/
def envBodyC : Env :=
  { decrypt := fun _ => .ok "tok", http := fun _ => .resp 200 bodyScenarioC,
    logFault := none, check_ip_allowlist := [], update_url_allowlist := [] }

/-- Oracle answering every update call with HTTP 200 and the wrapped
body. -/
def envBodyCWrapped : Env :=
  { decrypt := fun _ => .ok "tok", http := fun _ => .resp 200 bodyScenarioCWrapped,
    logFault := none, check_ip_allowlist := [], update_url_allowlist := [] }

/-- A target document whose update URL has no path component. -/
def docPlain : TargetDoc :=
  { id := "t1", hostname := "host1.example.com", update_url := "https://example.com",
    encrypted_token := "CT", interval := 300 }

/-- A target document whose update URL is already in pydantic's normal
form. -/
def docGood : TargetDoc :=
  { id := "t2", hostname := "host2.example.com",
    update_url := "https://example.com/update?x=1", encrypted_token := "CT2", interval := 60 }

/-- The target `docGood` loads to. -/
def tgtGood : AgentTarget :=
  { id := "t2", hostname := "host2.example.com",
    update_url := "https://example.com/update?x=1", encrypted_token := "CT2", interval := 60 }

/-- A body with two sibling `ErrCount` elements under one root. -/
def bodyDupErrCount : String := "<x><ErrCount>1</ErrCount><ErrCount>2</ErrCount></x>"

/-- A target whose template uses a positional placeholder. -/
def tgtPositional : AgentTarget :=
  { id := "p", hostname := "p.example.com", update_url := "https://example.com/{0}",
    encrypted_token := "CTP", interval := 300 }

/-- A plain healthy oracle with empty allowlists and no storage fault. -/
def envPlain : Env :=
  { decrypt := fun _ => .ok "tok", http := fun _ => .resp 200 "ok",
    logFault := none, check_ip_allowlist := [], update_url_allowlist := [] }

/-- Manual override enabled with no configured address. -/
def cfgManualNone : AgentConfig :=
  { check_ip_url := "https://api.ipify.org", targets := [tgtHealthy],
    manual_ip_enabled := true, manual_ip_address := none }

/-- A lone `ErrCount` element with text `2`. -/
def elemErrCount2 : Xml := .elem "ErrCount" [] "2" []

/-- An `IsSuccess` element with padded text ` False `. -/
def elemIsSuccessF : Xml := .elem "IsSuccess" [] " False " []

/-- An `Err2` element. -/
def elemErr2 : Xml := .elem "Err2" [] "Second error" []

/-- An `Error` element. -/
def elemErrorTag : Xml := .elem "Error" [] "late error" []

/-- A textless element carrying `IsSuccess`/`ErrCount` attributes. -/
def elemAttrOnly : Xml := .elem "a" [("IsSuccess", "false"), ("ErrCount", "9")] "" []

/-! ## Supporting lemmas -/

theorem dictGet_dictSet_self (d : List (String × String)) (k v : String) :
    dictGet (dictSet d k v) k = some v := by
  induction d with
  | nil => simp [dictSet, dictGet, List.find?]
  | cons p rest ih =>
    by_cases h : p.fst = k
    · cases p
      simp_all [dictSet, dictGet, List.find?]
    · cases p
      simp_all [dictSet, dictGet, List.find?]

theorem dictGet_dictSet_ne (d : List (String × String)) (k' v k : String)
    (h : k' ≠ k) : dictGet (dictSet d k' v) k = dictGet d k := by
  induction d with
  | nil => simp [dictSet, dictGet, List.find?, h]
  | cons p rest ih =>
    by_cases hp : p.fst = k'
    · cases p
      simp_all [dictSet, dictGet, List.find?]
    · cases p with
      | mk pk pv =>
        by_cases hk : pk = k
        · simp_all [dictSet, dictGet, List.find?]
        · simp_all [dictSet, dictGet, List.find?]

theorem errCountFlag_iff (fields : List (String × String)) :
    errCountFlag fields = true ↔
      ∃ s n, dictGet fields "ErrCount" = some s ∧ pyInt s = some n ∧ 0 < n := by
  unfold errCountFlag
  rcases hec : dictGet fields "ErrCount" with _ | s
  · simp
  · by_cases hs : s = ""
    · subst hs
      have hempty : pyInt "" = none := rfl
      simp [hempty]
    · simp only [hs, ne_eq, not_false_eq_true, if_true]
      rcases hp : pyInt s with _ | n
      · simp [hp]
      · simp [hp, decide_eq_true_iff]

theorem isSuccessFalseFlag_iff (fields : List (String × String)) :
    isSuccessFalseFlag fields = true ↔
      ∃ s, dictGet fields "IsSuccess" = some s ∧
        asciiLower (pyStrip s) ∈ (["false", "0", "no"] : List String) := by
  unfold isSuccessFalseFlag
  rcases his : dictGet fields "IsSuccess" with _ | s
  · simp
  · by_cases hs : s = ""
    · subst hs
      have hlow : asciiLower (pyStrip "") = "" := rfl
      simp [hlow]
    · simp [hs, List.elem_iff]

/-! ## Claim C4 -/

/-- C4 (confirmed): with provider fields extracted by
`_parse_namecheap_fields`, the runtime's classification is `error` exactly
when the HTTP status is at least 400, or the `ErrCount` field parses as an
integer greater than zero, or the `IsSuccess` field trimmed and lowercased
is `false`, `0` or `no`; a field failing integer parsing is ignored. -/
theorem c4_classification_rule_iff (body : String) (http_status : Int) :
    classify_status http_status (parse_namecheap_fields body) = "error" ↔
      (400 ≤ http_status ∨
       (∃ s n, dictGet (parse_namecheap_fields body) "ErrCount" = some s ∧
         pyInt s = some n ∧ 0 < n) ∨
       (∃ s, dictGet (parse_namecheap_fields body) "IsSuccess" = some s ∧
         asciiLower (pyStrip s) ∈ (["false", "0", "no"] : List String))) := by
  generalize parse_namecheap_fields body = fields
  unfold classify_status
  by_cases h : 400 ≤ http_status ∨ is_namecheap_error fields = true
  · simp only [h, if_true, true_iff]
    rcases h with h | h
    · exact Or.inl h
    · unfold is_namecheap_error at h
      by_cases hec : errCountFlag fields = true
      · exact Or.inr (Or.inl ((errCountFlag_iff fields).mp hec))
      · simp only [hec] at h
        simp only [Bool.false_eq_true, if_false] at h
        exact Or.inr (Or.inr ((isSuccessFalseFlag_iff fields).mp h))
  · simp only [h, if_false]
    constructor
    · intro hcontra
      exact absurd hcontra (by decide)
    · intro hr
      exfalso
      apply h
      rcases hr with hr | hr | hr
      · exact Or.inl hr
      · refine Or.inr ?_
        unfold is_namecheap_error
        have : errCountFlag fields = true := (errCountFlag_iff fields).mpr hr
        simp [this]
      · refine Or.inr ?_
        unfold is_namecheap_error
        have : isSuccessFalseFlag fields = true := (isSuccessFalseFlag_iff fields).mpr hr
        by_cases hec : errCountFlag fields = true <;> simp [hec, this]

theorem processAttempt_fault_free (env : Env) (h : env.logFault = none)
    (ip : Option String) (db : DBState) (t : AgentTarget) (pre : List Event) :
    ∃ r : UpdateRecord,
      (processAttempt env ip db t pre).fst.records = db.records ++ [r] ∧
      r.target_id = t.id ∧
      (processAttempt env ip db t pre).snd.snd = none ∧
      ((attemptOf env ip t).isFailure = true → r.status = "error") := by
  rcases hatt : attemptOf env ip t with m | m | m | ⟨url, m, rc⟩ | ⟨url, m⟩ | ⟨url, code, body⟩
  · exact ⟨⟨t.id, "error", m, none, ip⟩, by simp [processAttempt, hatt, log_update, h]⟩
  · exact ⟨⟨t.id, "error", m, none, ip⟩, by simp [processAttempt, hatt, log_update, h]⟩
  · exact ⟨⟨t.id, "error", "Update URL rejected: " ++ m, none, ip⟩,
      by simp [processAttempt, hatt, log_update, h]⟩
  · exact ⟨⟨t.id, "error", m, rc, ip⟩, by simp [processAttempt, hatt, log_update, h]⟩
  · exact ⟨⟨t.id, "error", m, none, ip⟩, by simp [processAttempt, hatt, log_update, h]⟩
  · refine ⟨⟨t.id, classify_status code (parse_namecheap_fields body),
      format_namecheap_message body (some code) (parse_namecheap_fields body),
      some code, ip⟩, ?_, rfl, ?_, ?_⟩
    · by_cases hs : classify_status code (parse_namecheap_fields body) = "success" ∧
        optTruthy ip = true
      · simp [processAttempt, hatt, log_update, h, hs, set_cache]
      · simp [processAttempt, hatt, log_update, h, hs]
    · by_cases hs : classify_status code (parse_namecheap_fields body) = "success" ∧
        optTruthy ip = true
      · simp [processAttempt, hatt, log_update, h, hs]
      · simp [processAttempt, hatt, log_update, h, hs]
    · intro hfail
      exact absurd hfail (by simp [Attempt.isFailure])

theorem processTarget_fault_free (env : Env) (h : env.logFault = none)
    (skip : Bool) (ip : Option String) (st : DBState) (t : AgentTarget) :
    (processTarget env skip ip st t).snd.snd = none ∧
    (¬(skip = true ∧ optTruthy ip = true ∧ get_cache st ("last_ip:" ++ t.id) = ip) →
      ∃ r : UpdateRecord,
        (processTarget env skip ip st t).fst.records = st.records ++ [r] ∧
        r.target_id = t.id ∧
        ((attemptOf env ip t).isFailure = true → r.status = "error")) := by
  by_cases hcond : skip = true ∧ optTruthy ip = true
  · by_cases hcache : get_cache st ("last_ip:" ++ t.id) = ip
    · constructor
      · simp [processTarget, hcond, hcache]
      · intro hn
        exact absurd ⟨hcond.1, hcond.2, hcache⟩ hn
    · obtain ⟨r, h1, h2, h3, h4⟩ := processAttempt_fault_free env h ip st t
        [.cacheRead ("last_ip:" ++ t.id) (get_cache st ("last_ip:" ++ t.id))]
      constructor
      · simp only [processTarget, hcond, and_self, if_true, hcache, if_false]
        exact h3
      · intro _
        refine ⟨r, ?_, h2, h4⟩
        simp only [processTarget, hcond, and_self, if_true, hcache, if_false]
        exact h1
  · obtain ⟨r, h1, h2, h3, h4⟩ := processAttempt_fault_free env h ip st t []
    constructor
    · simp only [processTarget, hcond, if_false]
      exact h3
    · intro _
      refine ⟨r, ?_, h2, h4⟩
      simp only [processTarget, hcond, if_false]
      exact h1

theorem runTargets_fault_free (env : Env) (h : env.logFault = none)
    (skip : Bool) (ip : Option String) :
    ∀ (ts : List AgentTarget) (st : DBState),
      (runTargets env skip ip st ts).snd.snd = none := by
  intro ts
  induction ts with
  | nil => intro st; rfl
  | cons t rest ih =>
    intro st
    have hp := (processTarget_fault_free env h skip ip st t).1
    simp only [runTargets, hp]
    exact ih _

theorem run_once_fault_free (env : Env) (cfg : AgentConfig) (db : DBState)
    (h : env.logFault = none)
    (hdet : (determine_current_ip env cfg).snd.snd.snd = none) :
    (run_once env cfg db).snd.snd = none := by
  by_cases hT : cfg.targets = []
  · simp [run_once, hT]
  · simp only [run_once, hT, if_false, hdet]
    by_cases hip : optTruthy (determine_current_ip env cfg).fst = true
    · simp [hip, runTargets_fault_free env h]
    · simp [hip, runTargets_fault_free env h]

/-! ## Claim C2 — amended theorem -/

/-- C2 (amended): when `log_update` does not fault, the per-target loop
never aborts — every decryption failure, URL rejection, network-layer
failure or unexpected exception is caught and persisted as exactly one
`UpdateRecord` with status `error` for that target, and the cycle's
exception channel stays empty.  (A persistent storage fault, by contrast,
escapes the handlers and aborts the remaining targets — see the
counterexample.) -/
theorem c2_per_target_failures_isolated (env : Env) (cfg : AgentConfig)
    (db : DBState) (h : env.logFault = none) :
    (∀ (skip : Bool) (ip : Option String) (st : DBState) (ts : List AgentTarget),
      (runTargets env skip ip st ts).snd.snd = none) ∧
    ((determine_current_ip env cfg).snd.snd.snd = none →
      (run_once env cfg db).snd.snd = none) ∧
    (∀ (skip : Bool) (ip : Option String) (st : DBState) (t : AgentTarget),
      (attemptOf env ip t).isFailure = true →
      ¬(skip = true ∧ optTruthy ip = true ∧ get_cache st ("last_ip:" ++ t.id) = ip) →
      ∃ r : UpdateRecord,
        (processTarget env skip ip st t).fst.records = st.records ++ [r] ∧
        r.status = "error" ∧ r.target_id = t.id ∧
        (processTarget env skip ip st t).snd.snd = none) := by
  refine ⟨fun skip ip st ts => runTargets_fault_free env h skip ip ts st,
    run_once_fault_free env cfg db h, ?_⟩
  intro skip ip st t hfail hns
  obtain ⟨hexc, hrec⟩ := processTarget_fault_free env h skip ip st t
  obtain ⟨r, h1, h2, h3⟩ := hrec hns
  exact ⟨r, h1, h3 hfail, h2, hexc⟩

/-- Witness for C2 (amended): the fault-free oracle of the leak scenario;
the cycle completes without an escaped exception and the URL-rejected
target is persisted as a single error record. -/
theorem c2_per_target_failures_isolated_witness :
    (run_once envLeak cfgLeak dbEmpty).snd.snd = none ∧
    (∃ r : UpdateRecord,
      (processTarget envLeak false (some "203.0.113.5") dbEmpty tgtLeak).fst.records =
        dbEmpty.records ++ [r] ∧
      r.status = "error" ∧ r.target_id = tgtLeak.id ∧
      (processTarget envLeak false (some "203.0.113.5") dbEmpty tgtLeak).snd.snd = none) := by
  constructor
  · exact (c2_per_target_failures_isolated envLeak cfgLeak dbEmpty rfl).2.1 (by decide)
  · exact (c2_per_target_failures_isolated envLeak cfgLeak dbEmpty rfl).2.2
      false (some "203.0.113.5") dbEmpty tgtLeak (by decide) (by simp)

theorem get_cache_set_cache_self (db : DBState) (k v : String) :
    get_cache (set_cache db k v) k = some v := by
  simp [get_cache, set_cache, dictGet_dictSet_self]

theorem processAttempt_decrypt_mem (env : Env) (ip : Option String)
    (db : DBState) (t : AgentTarget) (pre : List Event) :
    Event.decryptCall t.encrypted_token ∈ (processAttempt env ip db t pre).snd.fst := by
  rcases hatt : attemptOf env ip t with m | m | m | ⟨url, m, rc⟩ | ⟨url, m⟩ | ⟨url, code, body⟩ <;>
    rcases hlf : env.logFault with _ | m' <;>
    simp [processAttempt, hatt, attemptEvents, log_update, hlf]
  by_cases hs : classify_status code (parse_namecheap_fields body) = "success" ∧
      optTruthy ip = true <;>
    simp [hs]

theorem fetch_events_ipLookup (env : Env) (cfg : AgentConfig) :
    ∀ e ∈ (fetch_public_ip env cfg).snd.fst, ∃ u, e = Event.ipLookup u := by
  rcases hv : validate_url cfg.check_ip_url env.check_ip_allowlist with m | u
  · simp [fetch_public_ip, hv]
  · rcases hh : env.http cfg.check_ip_url with ⟨code, body⟩ | ⟨m, rc⟩ | m
    · by_cases hc : (400 : Int) ≤ code <;> simp [fetch_public_ip, hv, hh, hc]
    · simp [fetch_public_ip, hv, hh]
    · simp [fetch_public_ip, hv, hh]

theorem determine_events_ipLookup (env : Env) (cfg : AgentConfig) :
    ∀ e ∈ (determine_current_ip env cfg).snd.snd.fst, ∃ u, e = Event.ipLookup u := by
  by_cases h1 : cfg.manual_ip_enabled = true
  · by_cases h2 : optTruthy cfg.manual_ip_address = true
    · simp [determine_current_ip, h1, h2]
    · simpa [determine_current_ip, h1, h2] using fetch_events_ipLookup env cfg
  · simpa [determine_current_ip, h1] using fetch_events_ipLookup env cfg

/-! ## Claim C5 -/

/-- C5 (confirmed): on an unchanged pass (current IP known, nonempty, and
equal to the cached global `last_ip`, so `skip_unchanged_flag` holds), a
target whose per-target key `last_ip:<id>` already equals the current IP
is skipped — state unchanged, only the cache read in the trace, so zero
network calls and no `UpdateRecord`; a target whose entry is absent or
different is still attempted (its decrypt call is in the trace), and when
its response classifies `success` the per-target key is set to the current
IP. -/
theorem c5_unchanged_pass_per_target_gating (env : Env) (ip : String)
    (st : DBState) (t : AgentTarget) (hip : ip ≠ "") :
    skip_unchanged_flag (some ip) (some ip) = true ∧
    (get_cache st ("last_ip:" ++ t.id) = some ip →
      processTarget env true (some ip) st t =
        (st, [.cacheRead ("last_ip:" ++ t.id) (some ip)], none)) ∧
    (get_cache st ("last_ip:" ++ t.id) ≠ some ip →
      Event.decryptCall t.encrypted_token ∈ (processTarget env true (some ip) st t).snd.fst ∧
      (∀ url code body,
        env.logFault = none →
        attemptOf env (some ip) t = .responded url code body →
        classify_status code (parse_namecheap_fields body) = "success" →
        get_cache (processTarget env true (some ip) st t).fst ("last_ip:" ++ t.id) =
          some ip)) := by
  refine ⟨by simp [skip_unchanged_flag, optTruthy, hip], ?_, ?_⟩
  · intro hc
    simp [processTarget, optTruthy, hip, hc]
  · intro hc
    have key : processTarget env true (some ip) st t =
        processAttempt env (some ip) st t
          [Event.cacheRead ("last_ip:" ++ t.id) (get_cache st ("last_ip:" ++ t.id))] := by
      simp [processTarget, optTruthy, hip, hc]
    constructor
    · rw [key]
      exact processAttempt_decrypt_mem env (some ip) st t _
    · intro url code body hlf hresp hsucc
      rw [key]
      simp [processAttempt, hresp, log_update, hlf, hsucc, optTruthy, hip,
        get_cache_set_cache_self]

/-- Witness for C5: both branches at concrete inputs — the synchronized
target is skipped with just the cache read; the unsynchronized target is
attempted and, its response classifying `success`, gets its per-target
cache entry set. -/
theorem c5_unchanged_pass_per_target_gating_witness :
    (processTarget envBodyC true (some "203.0.113.5") dbSynced tgtHealthy =
      (dbSynced, [.cacheRead ("last_ip:" ++ tgtHealthy.id) (some "203.0.113.5")], none)) ∧
    get_cache (processTarget envBodyC true (some "203.0.113.5") dbEmpty tgtHealthy).fst
      ("last_ip:" ++ tgtHealthy.id) = some "203.0.113.5" := by
  constructor
  · exact (c5_unchanged_pass_per_target_gating envBodyC "203.0.113.5" dbSynced tgtHealthy
      (by decide)).2.1 (by decide)
  · exact ((c5_unchanged_pass_per_target_gating envBodyC "203.0.113.5" dbEmpty tgtHealthy
      (by decide)).2.2 (by decide)).2
      "https://dynamicdns.park-your-domain.com/update?host=b.example.com&password=tok&ip=203.0.113.5"
      200 bodyScenarioC rfl (by decide) (by decide)

/-! ## Claim C6 -/

/-- C6 (confirmed): when the current IP is known (nonempty) and differs
from the cached `last_ip` (or the entry is absent), the trace of
`run_once` writes the global `last_ip` key strictly before any per-target
work: everything preceding that write is an IP lookup or a cache read —
no token decryption, no update request, no `UpdateRecord` write, no cache
write of any kind. -/
theorem c6_last_ip_written_before_targets (env : Env) (cfg : AgentConfig)
    (db : DBState) (ip : String)
    (hT : cfg.targets ≠ [])
    (hdet : (determine_current_ip env cfg).fst = some ip)
    (hexc : (determine_current_ip env cfg).snd.snd.snd = none)
    (hip : ip ≠ "")
    (_hdiff : get_cache db "last_ip" ≠ some ip) :
    ∃ pre post,
      (run_once env cfg db).snd.fst = pre ++ Event.cacheWrite "last_ip" ip :: post ∧
      ∀ e ∈ pre, (∀ c, e ≠ .decryptCall c) ∧ (∀ u, e ≠ .updateCall u) ∧
        (∀ r, e ≠ .logWrite r) ∧ (∀ k v, e ≠ .cacheWrite k v) := by
  refine ⟨(determine_current_ip env cfg).snd.snd.fst ++
    [.cacheRead "last_ip" (get_cache db "last_ip")],
    (runTargets env (skip_unchanged_flag (some ip)
      (get_cache db "last_ip")) (some ip)
      (set_cache db "last_ip" ip) cfg.targets).snd.fst, ?_, ?_⟩
  · simp [run_once, hT, hexc, hdet, optTruthy, hip]
  · intro e he
    rcases List.mem_append.mp he with h0 | h0
    · obtain ⟨u, rfl⟩ := determine_events_ipLookup env cfg e h0
      refine ⟨?_, ?_, ?_, ?_⟩ <;> intros <;> simp
    · have : e = Event.cacheRead "last_ip" (get_cache db "last_ip") := by
        simpa using h0
      subst this
      refine ⟨?_, ?_, ?_, ?_⟩ <;> intros <;> simp

/-- Witness for C6 at a concrete configuration whose manual IP differs
from the (empty) cache. -/
theorem c6_last_ip_written_before_targets_witness :
    ∃ pre post,
      (run_once envBodyC cfgOne dbEmpty).snd.fst =
        pre ++ Event.cacheWrite "last_ip" "203.0.113.5" :: post ∧
      ∀ e ∈ pre, (∀ c, e ≠ .decryptCall c) ∧ (∀ u, e ≠ .updateCall u) ∧
        (∀ r, e ≠ .logWrite r) ∧ (∀ k v, e ≠ .cacheWrite k v) :=
  c6_last_ip_written_before_targets envBodyC cfgOne dbEmpty "203.0.113.5"
    (by decide) (by decide) (by decide) (by decide) (by decide)

/-! ## Claim C1 -/

/-- C1 (code bug): the decrypted token must never appear in a persisted
`UpdateRecord.message`, but when the update-URL template places the token
in the host position and the host allowlist rejects the built URL, the
rejection message — embedding the host, hence the token — is persisted
verbatim.  The run below decrypts `CT1` to `secrettoken` and persists a
message containing `secrettoken`. -/
theorem c1_token_leaked_into_persisted_message :
    envLeak.decrypt tgtLeak.encrypted_token = .ok "secrettoken" ∧
    (run_once envLeak cfgLeak dbEmpty).fst.records =
      [{ target_id := "t1", status := "error",
         message := "Update URL rejected: URL host secrettoken is not in the allowlist",
         response_code := none, ip_address := some "203.0.113.5" }] ∧
    containsSub "Update URL rejected: URL host secrettoken is not in the allowlist"
      "secrettoken" = true := by
  refine ⟨rfl, ?_, ?_⟩ <;> decide

/-! ## Claim C2 — counterexample -/

/-- C2 (counterexample): with a persistent storage fault, the first
target's URL rejection cannot be persisted; the fault raised by
`log_update` inside the `except` handler escapes `run_once`, so the second
target is never processed (its token is never even decrypted) and nothing
at all is persisted — contradicting both "never aborts the processing of
the remaining targets" and "every such per-target failure is …
persisted". -/
theorem c2_storage_fault_aborts_remaining_targets :
    (run_once envFault cfgFault dbEmpty).snd.snd = some "disk I/O error" ∧
    (run_once envFault cfgFault dbEmpty).fst.records = [] ∧
    ((run_once envFault cfgFault dbEmpty).snd.fst).contains
      (Event.decryptCall tgtHealthy.encrypted_token) = false := by
  refine ⟨?_, ?_, ?_⟩ <;> decide

/-! ## Claim C3 -/

/-- C3 (counterexample): the body of Scenario C, taken literally, has two
root elements, so `ElementTree.fromstring` raises and the field set is
empty; with HTTP 200 the runtime classifies the outcome `success`, and the
persisted message does not contain `Err1=Invalid Hostname`. -/
theorem c3_scenario_body_classified_success :
    (run_once envBodyC cfgOne dbEmpty).fst.records =
      [{ target_id := "b", status := "success",
         message := bodyScenarioC ++ " (HTTP 200)",
         response_code := some 200, ip_address := some "203.0.113.5" }] ∧
    containsSub (bodyScenarioC ++ " (HTTP 200)") "Err1=Invalid Hostname" = false := by
  refine ⟨?_, ?_⟩ <;> decide

/-- C3 (amended): for the same provider fields delivered inside a single
root element — `<interface-response><ErrCount>1</ErrCount><Err1>Invalid
Hostname</Err1></interface-response>` with HTTP 200 — the runtime
classifies the outcome `error` and persists a message containing
`Err1=Invalid Hostname`. -/
theorem c3_wrapped_body_classified_error :
    (run_once envBodyCWrapped cfgOne dbEmpty).fst.records.map
        (fun r => (r.target_id, r.status)) = [("b", "error")] ∧
    (run_once envBodyCWrapped cfgOne dbEmpty).fst.records.map
        (fun r => containsSub r.message "Err1=Invalid Hostname") = [true] := by
  refine ⟨?_, ?_⟩ <;> decide

/-! ## Claim C7 -/

/-- C7 (counterexample): pydantic's `HttpUrl` normalizes its input, so a
valid document whose `update_url` lacks a path loads successfully but
re-serializes with a trailing slash — not field-for-field equal to the
original document. -/
theorem c7_roundtrip_counterexample :
    loadAgentTarget docPlain =
      some { id := "t1", hostname := "host1.example.com",
             update_url := "https://example.com/", encrypted_token := "CT",
             interval := 300 } ∧
    (loadAgentTarget docPlain).map (fun t => (dumpAgentTarget t).update_url) =
      some "https://example.com/" ∧
    docPlain.update_url = "https://example.com" ∧
    ("https://example.com/" : String) ≠ "https://example.com" := by
  refine ⟨?_, ?_, ?_, ?_⟩ <;> decide

/-- C7 (amended): loading a valid target document preserves `id`,
`hostname`, `encrypted_token` and `interval` verbatim, while `update_url`
re-serializes as pydantic's normalization of the original; the full
field-for-field round-trip equality holds exactly when the original
`update_url` is already in normal form. -/
theorem c7_roundtrip_amended (doc : TargetDoc) (t : AgentTarget)
    (h : loadAgentTarget doc = some t) :
    t.id = doc.id ∧ t.hostname = doc.hostname ∧
    t.encrypted_token = doc.encrypted_token ∧ t.interval = doc.interval ∧
    normalizeHttpUrl doc.update_url = some t.update_url ∧
    ((dumpAgentTarget t).update_url = doc.update_url ↔
      normalizeHttpUrl doc.update_url = some doc.update_url) := by
  unfold loadAgentTarget at h
  rcases hN : normalizeHttpUrl doc.update_url with _ | u
  · rw [hN] at h
    cases h
  · rw [hN] at h
    have ht : t = ⟨doc.id, doc.hostname, u, doc.encrypted_token, doc.interval⟩ :=
      (Option.some.injEq _ _).mp h.symm
    subst ht
    refine ⟨rfl, rfl, rfl, rfl, rfl, ?_⟩
    constructor
    · intro he
      simp only [dumpAgentTarget] at he
      exact congrArg some he
    · intro he
      have hu : u = doc.update_url := (Option.some.injEq _ _).mp he
      simp [dumpAgentTarget, hu]

/-- Witness for C7 (amended) at a document already in normal form: all
five fields survive the round trip unchanged. -/
theorem c7_roundtrip_amended_witness :
    tgtGood.id = docGood.id ∧ tgtGood.hostname = docGood.hostname ∧
    tgtGood.encrypted_token = docGood.encrypted_token ∧
    tgtGood.interval = docGood.interval ∧
    normalizeHttpUrl docGood.update_url = some tgtGood.update_url ∧
    ((dumpAgentTarget tgtGood).update_url = docGood.update_url ↔
      normalizeHttpUrl docGood.update_url = some docGood.update_url) :=
  c7_roundtrip_amended docGood tgtGood (by decide)

/-! ## Claim C8 — counterexample -/

/-- C8 (counterexample): text-content collection is not
first-occurrence-wins — a later `<ErrCount>2</ErrCount>` replaces the
value `1` recorded from the earlier occurrence. -/
theorem c8_first_occurrence_counterexample :
    parse_namecheap_fields bodyDupErrCount = [("ErrCount", "2")] ∧
    dictGet (parse_namecheap_fields bodyDupErrCount) "ErrCount" ≠ some "1" := by
  refine ⟨?_, ?_⟩ <;> decide

/-! ## Claim C9 -/

/-- C9 (counterexample): a positional placeholder is a placeholder outside
`{token, hostname, id, ip}`, yet `_build_update_url` raises `IndexError`
instead of returning the literal template; the per-target handler then
records an `error` (no network call, the literal URL is never used) and
processing continues. -/
theorem c9_positional_placeholder_raises :
    build_update_url "https://example.com/{0}" "tok" "p.example.com" "p"
      (some "203.0.113.5") =
      .error "Replacement index out of range for positional args tuple" ∧
    processTarget envPlain false (some "203.0.113.5") dbEmpty tgtPositional =
      (⟨[⟨"p", "error", "Replacement index out of range for positional args tuple",
          none, some "203.0.113.5"⟩], []⟩,
       [.decryptCall "CTP",
        .logWrite ⟨"p", "error",
          "Replacement index out of range for positional args tuple",
          none, some "203.0.113.5"⟩],
       none) := by
  exact ⟨rfl, by decide⟩

/-- C9 (amended): a *named* placeholder outside the substitution set makes
`str.format` raise `KeyError`, which `_build_update_url` catches by
returning the literal template unchanged; a placeholder that instead
raises a non-`KeyError` (such as a positional field's `IndexError`)
escapes `_build_update_url`, and the per-target handler persists an
`error` record for that target and continues the cycle. -/
theorem c9_unknown_placeholder_policy :
    (∀ (url token hostname tid : String) (ip : Option String) (k : String),
      pyFormat url [("token", token), ("hostname", hostname), ("id", tid),
        ("ip", ip.getD "")] = .error (.keyError k) →
      build_update_url url token hostname tid ip = .ok url) ∧
    (∀ (env : Env) (skip : Bool) (ip : Option String) (st : DBState)
        (t : AgentTarget) (m : String),
      env.logFault = none →
      attemptOf env ip t = .formatRaised m →
      ¬(skip = true ∧ optTruthy ip = true ∧ get_cache st ("last_ip:" ++ t.id) = ip) →
      (processTarget env skip ip st t).fst.records =
        st.records ++ [⟨t.id, "error", m, none, ip⟩] ∧
      (processTarget env skip ip st t).snd.snd = none) := by
  constructor
  · intro url token hostname tid ip k h
    simp [build_update_url, h]
  · intro env skip ip st t m hlf hatt hns
    have hpa : ∀ pre, (processAttempt env ip st t pre).fst.records =
        st.records ++ [⟨t.id, "error", m, none, ip⟩] ∧
        (processAttempt env ip st t pre).snd.snd = none := by
      intro pre
      constructor <;> simp [processAttempt, hatt, log_update, hlf]
    by_cases hcond : skip = true ∧ optTruthy ip = true
    · by_cases hcache : get_cache st ("last_ip:" ++ t.id) = ip
      · exact absurd ⟨hcond.1, hcond.2, hcache⟩ hns
      · have key : processTarget env skip ip st t =
            processAttempt env ip st t
              [.cacheRead ("last_ip:" ++ t.id) (get_cache st ("last_ip:" ++ t.id))] := by
          simp [processTarget, hcond, hcache]
        rw [key]
        exact hpa _
    · have key : processTarget env skip ip st t = processAttempt env ip st t [] := by
        simp [processTarget, hcond]
      rw [key]
      exact hpa _

/-- Witness for C9 (amended): the named unknown placeholder `nope` falls
back to the literal template, and the positional-placeholder target is
persisted as a single error record with no escaped exception. -/
theorem c9_unknown_placeholder_policy_witness :
    build_update_url "https://x/{nope}" "tok" "h" "i" none = .ok "https://x/{nope}" ∧
    (processTarget envPlain false (some "203.0.113.5") dbEmpty tgtPositional).fst.records =
      dbEmpty.records ++ [⟨tgtPositional.id, "error",
        "Replacement index out of range for positional args tuple",
        none, some "203.0.113.5"⟩] := by
  constructor
  · exact c9_unknown_placeholder_policy.1 "https://x/{nope}" "tok" "h" "i" none "nope" rfl
  · exact (c9_unknown_placeholder_policy.2 envPlain false (some "203.0.113.5") dbEmpty
      tgtPositional "Replacement index out of range for positional args tuple"
      rfl (by decide) (by simp)).1

/-! ## Claim C8 — amended theorem -/

theorem errNTag_ne (tag : String) (h : isErrNTag tag = true) :
    tag ≠ "ErrCount" ∧ tag ≠ "IsSuccess" ∧ tag ≠ "Error" := by
  refine ⟨?_, ?_, ?_⟩ <;> rintro rfl <;> revert h <;> decide

theorem fieldsStepText_ErrCount (f : List (String × String)) (text : String)
    (h : text ≠ "") : fieldsStepText f "ErrCount" text = dictSet f "ErrCount" text := by
  unfold fieldsStepText
  rw [if_pos ⟨rfl, h⟩]

theorem fieldsStepText_IsSuccess (f : List (String × String)) (text : String)
    (h : text ≠ "") : fieldsStepText f "IsSuccess" text = dictSet f "IsSuccess" text := by
  unfold fieldsStepText
  rw [if_neg (fun hc => (by decide : ("IsSuccess" : String) ≠ "ErrCount") hc.1),
    if_pos ⟨rfl, h⟩]

theorem fieldsStepText_ErrN (f : List (String × String)) (tag text : String)
    (hN : isErrNTag tag = true) (h : text ≠ "") :
    fieldsStepText f tag text = dictSet f tag text := by
  obtain ⟨h1, h2, _⟩ := errNTag_ne tag hN
  unfold fieldsStepText
  rw [if_neg (fun hc => h1 hc.1), if_neg (fun hc => h2 hc.1), if_pos ⟨hN, h⟩]

theorem fieldsStepText_Error_preserved (f : List (String × String)) (text v : String)
    (hv : dictGet f "Err1" = some v) :
    fieldsStepText f "Error" text = f := by
  unfold fieldsStepText
  rw [if_neg (fun hc => (by decide : ("Error" : String) ≠ "ErrCount") hc.1),
    if_neg (fun hc => (by decide : ("Error" : String) ≠ "IsSuccess") hc.1),
    if_neg (fun hc => (by decide : ¬(isErrNTag "Error" = true)) hc.1),
    if_neg (fun hc => by simp [hv] at hc)]

theorem fieldsStepText_Error_sets (f : List (String × String)) (text : String)
    (h : text ≠ "") (hE : dictGet f "Err1" = none) :
    fieldsStepText f "Error" text = dictSet f "Err1" text := by
  unfold fieldsStepText
  rw [if_neg (fun hc => (by decide : ("Error" : String) ≠ "ErrCount") hc.1),
    if_neg (fun hc => (by decide : ("Error" : String) ≠ "IsSuccess") hc.1),
    if_neg (fun hc => (by decide : ¬(isErrNTag "Error" = true)) hc.1),
    if_pos ⟨rfl, h, hE⟩]

theorem fieldsStepText_preserves_IsSuccess (f : List (String × String))
    (tag text v : String) (hv : dictGet f "IsSuccess" = some v)
    (hnot : ¬(tag = "IsSuccess" ∧ text ≠ "")) :
    dictGet (fieldsStepText f tag text) "IsSuccess" = some v := by
  unfold fieldsStepText
  by_cases hc1 : tag = "ErrCount" ∧ text ≠ ""
  · rw [if_pos hc1, dictGet_dictSet_ne _ _ _ _ (by decide)]
    exact hv
  · rw [if_neg hc1, if_neg hnot]
    by_cases hc3 : isErrNTag tag = true ∧ text ≠ ""
    · rw [if_pos hc3, dictGet_dictSet_ne _ _ _ _ (errNTag_ne tag hc3.1).2.1]
      exact hv
    · rw [if_neg hc3]
      by_cases hc4 : tag = "Error" ∧ text ≠ "" ∧ dictGet f "Err1" = none
      · rw [if_pos hc4, dictGet_dictSet_ne _ _ _ _ (by decide)]
        exact hv
      · rw [if_neg hc4]
        exact hv

theorem fieldsStepText_preserves_ErrCount (f : List (String × String))
    (tag text v : String) (hv : dictGet f "ErrCount" = some v)
    (hnot : ¬(tag = "ErrCount" ∧ text ≠ "")) :
    dictGet (fieldsStepText f tag text) "ErrCount" = some v := by
  unfold fieldsStepText
  rw [if_neg hnot]
  by_cases hc2 : tag = "IsSuccess" ∧ text ≠ ""
  · rw [if_pos hc2, dictGet_dictSet_ne _ _ _ _ (by decide)]
    exact hv
  · rw [if_neg hc2]
    by_cases hc3 : isErrNTag tag = true ∧ text ≠ ""
    · rw [if_pos hc3, dictGet_dictSet_ne _ _ _ _ (errNTag_ne tag hc3.1).1]
      exact hv
    · rw [if_neg hc3]
      by_cases hc4 : tag = "Error" ∧ text ≠ "" ∧ dictGet f "Err1" = none
      · rw [if_pos hc4, dictGet_dictSet_ne _ _ _ _ (by decide)]
        exact hv
      · rw [if_neg hc4]
        exact hv

theorem fieldsStepAttrIS_lookup_other (f a : List (String × String)) (k : String)
    (h : ("IsSuccess" : String) ≠ k) :
    dictGet (fieldsStepAttrIS f a) k = dictGet f k := by
  unfold fieldsStepAttrIS
  rcases hA : dictGet a "IsSuccess" with _ | w
  · rfl
  · dsimp only
    by_cases hg : dictGet f "IsSuccess" = none
    · rw [if_pos hg]
      exact dictGet_dictSet_ne _ _ _ _ h
    · rw [if_neg hg]

theorem fieldsStepAttrEC_lookup_other (f a : List (String × String)) (k : String)
    (h : ("ErrCount" : String) ≠ k) :
    dictGet (fieldsStepAttrEC f a) k = dictGet f k := by
  unfold fieldsStepAttrEC
  rcases hA : dictGet a "ErrCount" with _ | w
  · rfl
  · dsimp only
    by_cases hg : dictGet f "ErrCount" = none
    · rw [if_pos hg]
      exact dictGet_dictSet_ne _ _ _ _ h
    · rw [if_neg hg]

theorem fieldsStepAttrIS_of_some (f a : List (String × String)) (v : String)
    (hv : dictGet f "IsSuccess" = some v) :
    fieldsStepAttrIS f a = f := by
  unfold fieldsStepAttrIS
  rcases hA : dictGet a "IsSuccess" with _ | w
  · rfl
  · dsimp only
    rw [if_neg (by simp [hv])]

theorem fieldsStepAttrEC_of_some (f a : List (String × String)) (v : String)
    (hv : dictGet f "ErrCount" = some v) :
    fieldsStepAttrEC f a = f := by
  unfold fieldsStepAttrEC
  rcases hA : dictGet a "ErrCount" with _ | w
  · rfl
  · dsimp only
    rw [if_neg (by simp [hv])]

theorem fieldsStepAttr_IsSuccess_some (f a : List (String × String)) (v : String)
    (hv : dictGet f "IsSuccess" = some v) :
    dictGet (fieldsStepAttr f a) "IsSuccess" = some v := by
  unfold fieldsStepAttr
  rw [fieldsStepAttrIS_of_some f a v hv,
    fieldsStepAttrEC_lookup_other f a "IsSuccess" (by decide)]
  exact hv

theorem fieldsStepAttr_ErrCount_some (f a : List (String × String)) (v : String)
    (hv : dictGet f "ErrCount" = some v) :
    dictGet (fieldsStepAttr f a) "ErrCount" = some v := by
  unfold fieldsStepAttr
  have hmid : dictGet (fieldsStepAttrIS f a) "ErrCount" = some v :=
    (fieldsStepAttrIS_lookup_other f a "ErrCount" (by decide)).trans hv
  rw [fieldsStepAttrEC_of_some _ a v hmid]
  exact hmid

theorem fieldsStepAttr_preserves (f a : List (String × String)) (k : String)
    (h1 : k ≠ "IsSuccess") (h2 : k ≠ "ErrCount") :
    dictGet (fieldsStepAttr f a) k = dictGet f k := by
  unfold fieldsStepAttr
  rw [fieldsStepAttrEC_lookup_other _ a k (Ne.symm h2),
    fieldsStepAttrIS_lookup_other f a k (Ne.symm h1)]

/-- C8 (amended): field collection is last-occurrence-wins for text
content — a later `ErrCount`, `IsSuccess` or `Err<digits>` element with
nonempty text *replaces* any previously recorded value — while the
remaining rules hold as claimed: an `Error` tag is mapped to `Err1` only
when `Err1` is not already set (and does set it when unset), and an
`IsSuccess`/`ErrCount` attribute never overrides a field that is already
present. -/
theorem c8_fields_collection_amended :
    (∀ (f : List (String × String)) (e : Xml),
      strip_xml_tag e.tag = "ErrCount" → pyStrip e.text ≠ "" →
      dictGet (fieldsStep f e) "ErrCount" = some (pyStrip e.text)) ∧
    (∀ (f : List (String × String)) (e : Xml),
      strip_xml_tag e.tag = "IsSuccess" → pyStrip e.text ≠ "" →
      dictGet (fieldsStep f e) "IsSuccess" = some (pyStrip e.text)) ∧
    (∀ (f : List (String × String)) (e : Xml),
      isErrNTag (strip_xml_tag e.tag) = true → pyStrip e.text ≠ "" →
      dictGet (fieldsStep f e) (strip_xml_tag e.tag) = some (pyStrip e.text)) ∧
    (∀ (f : List (String × String)) (e : Xml) (v : String),
      strip_xml_tag e.tag = "Error" → dictGet f "Err1" = some v →
      dictGet (fieldsStep f e) "Err1" = some v) ∧
    (∀ (f : List (String × String)) (e : Xml),
      strip_xml_tag e.tag = "Error" → pyStrip e.text ≠ "" →
      dictGet f "Err1" = none →
      dictGet (fieldsStep f e) "Err1" = some (pyStrip e.text)) ∧
    (∀ (f : List (String × String)) (e : Xml) (v : String),
      dictGet f "IsSuccess" = some v →
      ¬(strip_xml_tag e.tag = "IsSuccess" ∧ pyStrip e.text ≠ "") →
      dictGet (fieldsStep f e) "IsSuccess" = some v) ∧
    (∀ (f : List (String × String)) (e : Xml) (v : String),
      dictGet f "ErrCount" = some v →
      ¬(strip_xml_tag e.tag = "ErrCount" ∧ pyStrip e.text ≠ "") →
      dictGet (fieldsStep f e) "ErrCount" = some v) := by
  refine ⟨?_, ?_, ?_, ?_, ?_, ?_, ?_⟩
  · intro f e h1 h2
    unfold fieldsStep
    rw [h1, fieldsStepText_ErrCount f _ h2]
    exact fieldsStepAttr_ErrCount_some _ _ _ (dictGet_dictSet_self f "ErrCount" _)
  · intro f e h1 h2
    unfold fieldsStep
    rw [h1, fieldsStepText_IsSuccess f _ h2]
    exact fieldsStepAttr_IsSuccess_some _ _ _ (dictGet_dictSet_self f "IsSuccess" _)
  · intro f e hN h2
    unfold fieldsStep
    rw [fieldsStepText_ErrN f _ _ hN h2]
    obtain ⟨hEc, hIs, _⟩ := errNTag_ne _ hN
    rw [fieldsStepAttr_preserves _ _ _ hIs hEc]
    exact dictGet_dictSet_self f _ _
  · intro f e v h1 hv
    unfold fieldsStep
    rw [h1, fieldsStepText_Error_preserved f _ v hv]
    rw [fieldsStepAttr_preserves _ _ _ (by decide) (by decide)]
    exact hv
  · intro f e h1 h2 hE
    unfold fieldsStep
    rw [h1, fieldsStepText_Error_sets f _ h2 hE]
    rw [fieldsStepAttr_preserves _ _ _ (by decide) (by decide)]
    exact dictGet_dictSet_self f "Err1" _
  · intro f e v hv hnot
    unfold fieldsStep
    exact fieldsStepAttr_IsSuccess_some _ _ _
      (fieldsStepText_preserves_IsSuccess f _ _ v hv hnot)
  · intro f e v hv hnot
    unfold fieldsStep
    exact fieldsStepAttr_ErrCount_some _ _ _
      (fieldsStepText_preserves_ErrCount f _ _ v hv hnot)

/-- Witness for C8 (amended): each collection rule at a concrete field set
and element. -/
theorem c8_fields_collection_amended_witness :
    dictGet (fieldsStep [("ErrCount", "1")] elemErrCount2) "ErrCount" = some "2" ∧
    dictGet (fieldsStep [("IsSuccess", "true")] elemIsSuccessF) "IsSuccess" = some "False" ∧
    dictGet (fieldsStep [("Err2", "First")] elemErr2) "Err2" = some "Second error" ∧
    dictGet (fieldsStep [("Err1", "first")] elemErrorTag) "Err1" = some "first" ∧
    dictGet (fieldsStep [] elemErrorTag) "Err1" = some "late error" ∧
    dictGet (fieldsStep [("IsSuccess", "true")] elemAttrOnly) "IsSuccess" = some "true" ∧
    dictGet (fieldsStep [("ErrCount", "1")] elemAttrOnly) "ErrCount" = some "1" := by
  refine ⟨c8_fields_collection_amended.1 _ elemErrCount2 (by decide) (by decide),
    c8_fields_collection_amended.2.1 _ elemIsSuccessF (by decide) (by decide),
    c8_fields_collection_amended.2.2.1 _ elemErr2 (by decide) (by decide),
    c8_fields_collection_amended.2.2.2.1 _ elemErrorTag "first" (by decide) (by decide),
    c8_fields_collection_amended.2.2.2.2.1 _ elemErrorTag (by decide) (by decide) (by decide),
    c8_fields_collection_amended.2.2.2.2.2.1 _ elemAttrOnly "true" (by decide) (by decide),
    c8_fields_collection_amended.2.2.2.2.2.2 _ elemAttrOnly "1" (by decide) (by decide)⟩

/-! ## Claim C10 -/

/-- C10 (confirmed): the schema validator normalizes an empty
`manual_ip_address` to absent without raising, and a runtime with manual
override enabled but no (or an empty) configured address falls back to
automatic public-IP lookup with the warning flag set. -/
theorem c10_manual_ip_empty_normalizes_and_falls_back :
    validate_manual_ip_address (some "") = .ok none ∧
    (∀ (env : Env) (cfg : AgentConfig), cfg.manual_ip_enabled = true →
      cfg.manual_ip_address = none →
      determine_current_ip env cfg =
        ((fetch_public_ip env cfg).fst, true, (fetch_public_ip env cfg).snd.fst,
         (fetch_public_ip env cfg).snd.snd)) ∧
    (∀ (env : Env) (cfg : AgentConfig), cfg.manual_ip_enabled = true →
      cfg.manual_ip_address = some "" →
      determine_current_ip env cfg =
        ((fetch_public_ip env cfg).fst, true, (fetch_public_ip env cfg).snd.fst,
         (fetch_public_ip env cfg).snd.snd)) := by
  refine ⟨rfl, ?_, ?_⟩ <;>
    · intro env cfg h1 h2
      simp [determine_current_ip, h1, h2, optTruthy]

/-- Witness for C10 at a concrete configuration with manual override
enabled and no address. -/
theorem c10_manual_ip_empty_normalizes_and_falls_back_witness :
    determine_current_ip envPlain cfgManualNone =
      ((fetch_public_ip envPlain cfgManualNone).fst, true,
       (fetch_public_ip envPlain cfgManualNone).snd.fst,
       (fetch_public_ip envPlain cfgManualNone).snd.snd) :=
  c10_manual_ip_empty_normalizes_and_falls_back.2.1 envPlain cfgManualNone rfl rfl

end DDNS
